import Mathlib

/-!
Verification of the commission-rule DSL (parser, validator, evaluator).

The development shallowly embeds the TypeScript sources:
  - `src/evaluator.ts` (`RuleEvaluator`, backed by `math.evaluate`),
  - the `IndentedTreeParser` (parsimmon grammar, rule assembly, and its own
    `Function`-backed evaluator),
  - `src/validation.ts` (`RuleValidator`),
  - `src/types.ts` (the data model).

Modelling conventions:
  - JavaScript numbers are modelled by `JsNum`: finite values are exact
    rationals (the decimal literals and arithmetic appearing in this
    development are exactly representable; IEEE rounding and signed zero
    are not modelled), plus `Infinity`, `-Infinity` and `NaN`.
  - JavaScript objects used as contexts are association lists with
    first-match lookup; an absent key is `none` (`undefined`).
  - Thrown errors become `Except` values; the `details`/`originalError`
    payload of a wrapped error is kept as the `inner` field.
  - `===` on two arrays is reference equality in JavaScript; the array
    values compared by this code always originate from distinct objects
    (a parsed rule versus a caller context), so the embedding returns
    `false` for array/array strict equality and does not model aliasing.
  - The host expression backends (`math.evaluate` from mathjs, and
    `Function("return " + e)()`) are not part of the repository; theorems
    about the wrapping code are parametric in a `Backend`, and a concrete
    backend for the arithmetic fragment is modelled from the spec (§4.5).
-/

set_option maxRecDepth 100000

namespace CommissionDsl

/-!
The library's `Rat.add`, `Rat.mul`, ... are `@[irreducible]`, which
blocks definitional evaluation of concrete runs.  The helpers below
implement the same exact rational arithmetic through `mkRat`, which
does reduce; `mkRat` normalizes, so the results coincide with the
library operations.
-/

/-- Exact rational addition via `mkRat`. -/
def qAdd (a b : ℚ) : ℚ := mkRat (a.num * b.den + b.num * a.den) (a.den * b.den)

/-- Exact rational subtraction via `mkRat`. -/
def qSub (a b : ℚ) : ℚ := mkRat (a.num * b.den - b.num * a.den) (a.den * b.den)

/-- Exact rational multiplication via `mkRat`. -/
def qMul (a b : ℚ) : ℚ := mkRat (a.num * b.num) (a.den * b.den)

/-- Exact rational negation via `mkRat`. -/
def qNeg (a : ℚ) : ℚ := mkRat (-a.num) a.den

/-- Exact rational division via `mkRat` (callers check the divisor is
nonzero first). -/
def qDiv (a b : ℚ) : ℚ :=
  let n : Int := a.num * b.den
  let d : Int := a.den * b.num
  mkRat (if d < 0 then -n else n) d.natAbs

/-- A JavaScript number: finite values modelled exactly as rationals,
plus the IEEE special values. -/
inductive JsNum where
  | fin (q : ℚ)
  | inf
  | negInf
  | nan
deriving DecidableEq, Repr

namespace JsNum

/-- `Number.isFinite`. -/
def isFinite : JsNum → Bool
  | .fin _ => true
  | _ => false

/-- IEEE addition (exact on finite operands). -/
def add : JsNum → JsNum → JsNum
  | .nan, _ => .nan
  | _, .nan => .nan
  | .fin a, .fin b => .fin (qAdd a b)
  | .inf, .negInf => .nan
  | .negInf, .inf => .nan
  | .inf, _ => .inf
  | _, .inf => .inf
  | .negInf, _ => .negInf
  | _, .negInf => .negInf

/-- IEEE subtraction (exact on finite operands). -/
def sub : JsNum → JsNum → JsNum
  | .nan, _ => .nan
  | _, .nan => .nan
  | .fin a, .fin b => .fin (qSub a b)
  | .inf, .inf => .nan
  | .negInf, .negInf => .nan
  | .inf, _ => .inf
  | .negInf, _ => .negInf
  | .fin _, .inf => .negInf
  | .fin _, .negInf => .inf

/-- IEEE multiplication (exact on finite operands; signed zero collapsed). -/
def mul : JsNum → JsNum → JsNum
  | .nan, _ => .nan
  | _, .nan => .nan
  | .fin a, .fin b => .fin (qMul a b)
  | .inf, .inf => .inf
  | .inf, .negInf => .negInf
  | .negInf, .inf => .negInf
  | .negInf, .negInf => .inf
  | .inf, .fin b => if b > 0 then .inf else if b < 0 then .negInf else .nan
  | .fin a, .inf => if a > 0 then .inf else if a < 0 then .negInf else .nan
  | .negInf, .fin b => if b > 0 then .negInf else if b < 0 then .inf else .nan
  | .fin a, .negInf => if a > 0 then .negInf else if a < 0 then .inf else .nan

/-- IEEE division (exact on finite operands; division by zero yields a
signed infinity, `0/0` yields `NaN`; signed zero collapsed). -/
def div : JsNum → JsNum → JsNum
  | .nan, _ => .nan
  | _, .nan => .nan
  | .fin a, .fin b =>
      if b ≠ 0 then .fin (qDiv a b)
      else if a > 0 then .inf
      else if a < 0 then .negInf
      else .nan
  | .inf, .inf => .nan
  | .inf, .negInf => .nan
  | .negInf, .inf => .nan
  | .negInf, .negInf => .nan
  | .inf, .fin b => if b ≥ 0 then .inf else .negInf
  | .negInf, .fin b => if b ≥ 0 then .negInf else .inf
  | .fin _, .inf => .fin 0
  | .fin _, .negInf => .fin 0

/-- IEEE unary negation. -/
def neg : JsNum → JsNum
  | .nan => .nan
  | .inf => .negInf
  | .negInf => .inf
  | .fin a => .fin (qNeg a)

/-- The IEEE `<` comparison as a three-valued relation: `none` when an
operand is `NaN` (JavaScript then treats the comparison as undefined). -/
def lessComp : JsNum → JsNum → Option Bool
  | .nan, _ => none
  | _, .nan => none
  | .fin a, .fin b => some (decide (a < b))
  | .inf, _ => some false
  | .negInf, .negInf => some false
  | .negInf, _ => some true
  | .fin _, .inf => some true
  | .fin _, .negInf => some false

/-- JavaScript `===` on numbers: `NaN` is equal to nothing, infinities
compare by identity, finite values by value. -/
def strictEq : JsNum → JsNum → Bool
  | .nan, _ => false
  | _, .nan => false
  | .fin a, .fin b => a == b
  | .inf, .inf => true
  | .negInf, .negInf => true
  | _, _ => false

/-- `SameValueZero` (the equality used by `Array.prototype.includes`):
like `===` except that `NaN` equals `NaN`. -/
def sameValueZero : JsNum → JsNum → Bool
  | .nan, .nan => true
  | a, b => strictEq a b

end JsNum

/-- A scalar DSL value (`string | number | boolean` from `types.ts`). -/
inductive Scalar where
  | num (n : JsNum)
  | str (s : String)
  | bool (b : Bool)
deriving DecidableEq, Repr

/-- A condition or context value (`Scalar | Scalar[]` from `types.ts`). -/
inductive Value where
  | scalar (x : Scalar)
  | arr (xs : List Scalar)
deriving DecidableEq, Repr

/-- A runtime context: key/value mapping with unique keys, modelled as an
association list with first-match lookup. -/
def Context := List (String × Value)

/-- `context[key]`: `none` models `undefined`. -/
def lookupCtx (context : Context) (key : String) : Option Value :=
  match context with
  | [] => none
  | (k, v) :: rest => if k = key then some v else lookupCtx rest key

/-- Decimal digits of the fractional part `num/den` (`num < den`),
produced by repeated multiplication by 10; exact for terminating
decimals, truncated at the fuel bound otherwise (JavaScript prints
shortest round-trip decimals; this development only converts values
whose expansion terminates). -/
def fracDigits : Nat → Nat → Nat → List Char
  | 0, _, _ => []
  | _, 0, _ => []
  | fuel + 1, num, den =>
      let num10 := num * 10
      let digit := num10 / den
      Char.ofNat (48 + digit) :: fracDigits fuel (num10 % den) den

/-- `String(n)` for a finite JavaScript number, modelled on exact
rationals: integers print with no point, other values print their
decimal expansion. -/
def ratToString (q : ℚ) : String :=
  if q.den = 1 then toString q.num
  else
    let sign := if q.num < 0 then "-" else ""
    let num := q.num.natAbs
    let intPart := num / q.den
    sign ++ toString intPart ++ "." ++ String.mk (fracDigits 30 (num % q.den) q.den)

/-- `String(n)` for a JavaScript number. -/
def JsNum.toJsString : JsNum → String
  | .fin q => ratToString q
  | .inf => "Infinity"
  | .negInf => "-Infinity"
  | .nan => "NaN"

/-- `String(v)` for a scalar. -/
def Scalar.toJsString : Scalar → String
  | .num n => n.toJsString
  | .str s => s
  | .bool b => if b then "true" else "false"

/-- `String(v)`: arrays stringify as their elements joined by `,`
(`Array.prototype.toString`). -/
def Value.toJsString : Value → String
  | .scalar x => x.toJsString
  | .arr xs => String.intercalate "," (xs.map Scalar.toJsString)

/-- Is `c` whitespace for JavaScript (`\s`, ASCII range)? -/
def isJsSpace (c : Char) : Bool :=
  c = ' ' || c = '\t' || c = '\n' || c = '\r' || c = '\x0b' || c = '\x0c'

/-- `String.prototype.trim`: strip leading and trailing whitespace. -/
def jsTrim (s : String) : String :=
  String.mk ((s.data.dropWhile isJsSpace).reverse.dropWhile isJsSpace).reverse

/-- Lexicographic order on code points (JavaScript compares strings by
UTF-16 code unit; the two orders agree on the ASCII strings this
development compares). -/
def lexLt : List Char → List Char → Bool
  | [], [] => false
  | [], _ :: _ => true
  | _ :: _, [] => false
  | a :: as, b :: bs =>
      if a.toNat < b.toNat then true
      else if b.toNat < a.toNat then false
      else lexLt as bs

/-- Digits read as a natural number (most significant first). -/
def digitsToNat (l : List Char) : Nat :=
  l.foldl (fun acc c => acc * 10 + (c.toNat - 48)) 0

/-- The exact rational value of a decimal literal with optional sign:
`intDs . fracDs` as `(int * 10^k + frac) / 10^k`. -/
def decimalToRat (neg : Bool) (intDs fracDs : List Char) : ℚ :=
  let scale : Nat := 10 ^ fracDs.length
  let mag : Int := (digitsToNat intDs : Int) * scale + (digitsToNat fracDs : Int)
  mkRat (if neg then -mag else mag) scale

/-- `Number(s)` on a trimmed string: optional sign, then
`digits`, `digits.digits` or `.digits`; anything else is `NaN`
(hexadecimal and exponent forms are not modelled — no string this
development converts uses them). -/
def parseDecimal (l : List Char) : JsNum :=
  let (neg, l1) := match l with
    | '-' :: r => (true, r)
    | '+' :: r => (false, r)
    | _ => (false, l)
  let intDigits := l1.takeWhile Char.isDigit
  let afterInt := l1.dropWhile Char.isDigit
  let (fracDs, rest) := match afterInt with
    | '.' :: r => (r.takeWhile Char.isDigit, r.dropWhile Char.isDigit)
    | _ => ([], afterInt)
  if intDigits.isEmpty ∧ fracDs.isEmpty then .nan
  else if ¬ rest.isEmpty then .nan
  else
    .fin (decimalToRat neg intDigits fracDs)

/-- `Number(s)` (`ToNumber` on a string): leading/trailing whitespace is
ignored, the empty string is `0`. -/
def parseJsNumber (s : String) : JsNum :=
  let l := (s.data.dropWhile isJsSpace).reverse.dropWhile isJsSpace |>.reverse
  if l.isEmpty then .fin 0
  else if l = "Infinity".data then .inf
  else if l = "-Infinity".data then .negInf
  else parseDecimal l

/-- `ToNumber` on a scalar. -/
def Scalar.toJsNumber : Scalar → JsNum
  | .num n => n
  | .bool b => .fin (if b then 1 else 0)
  | .str s => parseJsNumber s

/-- `ToPrimitive` with the default hint: scalars are already primitive,
an array converts to its joined string. -/
def Value.toPrim : Value → Scalar
  | .scalar x => x
  | .arr xs => .str (String.intercalate "," (xs.map Scalar.toJsString))

/-- The abstract relational comparison `a < b`: after `ToPrimitive`, two
strings compare lexicographically (by code unit; identical to the Lean
order on the ASCII strings this development compares), anything else
numerically; `none` when a numeric operand is `NaN`. -/
def jsLessComp (a b : Value) : Option Bool :=
  match a.toPrim, b.toPrim with
  | .str x, .str y => some (lexLt x.data y.data)
  | pa, pb => JsNum.lessComp pa.toJsNumber pb.toJsNumber

/-- JavaScript `a < b` (an undefined comparison is `false`). -/
def jsLt (a b : Value) : Bool := (jsLessComp a b).getD false

/-- JavaScript `a > b`, specified as `b < a`. -/
def jsGt (a b : Value) : Bool := (jsLessComp b a).getD false

/-- JavaScript `a <= b`, specified as `¬ (b < a)` unless undefined. -/
def jsLe (a b : Value) : Bool :=
  match jsLessComp b a with
  | none => false
  | some r => !r

/-- JavaScript `a >= b`, specified as `¬ (a < b)` unless undefined. -/
def jsGe (a b : Value) : Bool :=
  match jsLessComp a b with
  | none => false
  | some r => !r

/-- JavaScript `===` on scalars. -/
def Scalar.strictEq : Scalar → Scalar → Bool
  | .num a, .num b => JsNum.strictEq a b
  | .str a, .str b => a == b
  | .bool a, .bool b => a == b
  | _, _ => false

/-- JavaScript `===` on values: two arrays compare by reference, and the
arrays reaching this comparison are always distinct objects, so the
embedding returns `false` (see the header note on aliasing). -/
def Value.strictEq : Value → Value → Bool
  | .scalar a, .scalar b => Scalar.strictEq a b
  | _, _ => false

/-- `SameValueZero` between an array element and a tested value, as used
by `Array.prototype.includes` (`NaN` matches `NaN`). -/
def sameValueZeroElem (x : Scalar) (v : Value) : Bool :=
  match v with
  | .scalar y =>
      match x, y with
      | .num a, .num b => JsNum.sameValueZero a b
      | a, b => Scalar.strictEq a b
  | .arr _ => false

/-- A `Condition` (`types.ts`): the operator is kept as the raw string,
as in the source, so that the defensive invalid-operator branch of the
evaluator stays representable. -/
structure Condition where
  field : String
  operator : String
  value : Value
deriving DecidableEq, Repr

/-- A `Calculation` (`types.ts`). -/
structure Calculation where
  expression : String
deriving DecidableEq, Repr

/-- A `Rule` (`types.ts`). The priority is a JavaScript number; the
parser only ever produces non-negative integers for it, and a non-finite
priority cannot arise in this code, so it is modelled as a rational. -/
structure Rule where
  name : String
  priority : ℚ
  conditions : List Condition
  calculation : Calculation
  notes : Option String := none
deriving DecidableEq, Repr

/-- The errors thrown by the pipeline: `EvaluatorError`, `ParserError`
and `ValidationError` classes, plus plain host `Error`s raised inside a
`try` block (`hostError`).  The `inner` field models the
`originalError` carried in the `details` payload. -/
inductive DslError where
  | evaluatorError (msg : String) (inner : Option DslError)
  | parserError (msg : String) (inner : Option DslError)
  | validationError (msg : String)
  | hostError (msg : String)
deriving Repr

/-- The host expression backend seen by the wrapping code:
`math.evaluate(e, mathScope)` for `RuleEvaluator`,
`Function("return " + e)()` for `IndentedTreeParser`.  A thrown host
exception is an `error` carrying its message. -/
def Backend := String → Except String Value

/-- Tag a thrown message with the throwing class: the `RuleEvaluator`
and `IndentedTreeParser` copies of the evaluation methods are textually
identical except for the error class they throw, so the shared cores
below carry the message and each class wraps it. -/
def mapErr (mkErr : String → DslError) : Except String α → Except DslError α
  | .ok a => .ok a
  | .error m => .error (mkErr m)

/-- The right-hand operand of a condition — the source binding
`const rightValue = typeof condition.value === 'string' &&
context[condition.value] !== undefined ? context[condition.value] :
condition.value` (`evaluator.ts:70-72`). -/
def rightOperand (value : Value) (context : Context) : Value :=
  match value with
  | .scalar (.str s) =>
      match lookupCtx context s with
      | some v => v
      | none => value
  | _ => value

/-- `evaluateCondition` (`evaluator.ts:64-95`, and the textually
identical `evaluator.ts:321-352`). -/
def evaluateConditionCore (condition : Condition) (context : Context) :
    Except String Bool :=
  match lookupCtx context condition.field with
  | none =>
      .error ("Missing required field '" ++ condition.field ++ "' in context")
  | some leftValue =>
      let rightValue := rightOperand condition.value context
      match condition.operator with
      | "==" => .ok (Value.strictEq leftValue rightValue)
      | "!=" => .ok (!Value.strictEq leftValue rightValue)
      | ">" => .ok (jsGt leftValue rightValue)
      | "<" => .ok (jsLt leftValue rightValue)
      | ">=" => .ok (jsGe leftValue rightValue)
      | "<=" => .ok (jsLe leftValue rightValue)
      | "in" =>
          match rightValue with
          | .arr xs => .ok (xs.any (fun x => sameValueZeroElem x leftValue))
          | _ => .error "Operator 'in' requires an array value"
      | op => .error ("Invalid operator '" ++ op ++ "'")

/-- `evaluateConditions` (`evaluator.ts:60-62`):
`conditions.every(...)` — left to right, stopping at the first `false`,
propagating a thrown error. -/
def evaluateConditionsCore : List Condition → Context → Except String Bool
  | [], _ => .ok true
  | c :: rest, context =>
      match evaluateConditionCore c context with
      | .error e => .error e
      | .ok false => .ok false
      | .ok true => evaluateConditionsCore rest context

/-- Is `c` a word character for the substitution regex (`[a-zA-Z0-9_]`)? -/
def isWordChar (c : Char) : Bool := c.isAlphanum || c = '_'

/-- May `c` start an identifier token (`[a-zA-Z_]`)? -/
def isIdentStartChar (c : Char) : Bool := c.isAlpha || c = '_'

theorem length_dropWhile_le (p : Char → Bool) (l : List Char) :
    (l.dropWhile p).length ≤ l.length := by
  induction l with
  | nil => simp [List.dropWhile]
  | cons c rest ih =>
      by_cases h : p c
      · simp [List.dropWhile, h]; omega
      · simp [List.dropWhile, h]

/-- The replacement pass of `substituteVariables` (`evaluator.ts:102-108`
and the identical `evaluator.ts:355-361`): the global regex
`\b[a-zA-Z_][a-zA-Z0-9_]*\b` matches exactly the maximal word-character
runs whose first character is not a digit; each match is replaced by
`String(context[match])`, or the replacer throws on a missing key. -/
def substituteGo (context : Context) :
    Nat → List Char → Except String (List Char)
  | _, [] => .ok []
  | 0, _ :: _ =>
      -- never reached: the caller supplies the input length as fuel and
      -- every step below consumes at least one character
      .error "substitution fuel exhausted"
  | fuel + 1, c :: rest =>
      if isIdentStartChar c then
        let tok := String.mk (c :: rest.takeWhile isWordChar)
        match lookupCtx context tok with
        | none =>
            .error ("Missing required variable '" ++ tok ++ "' in context")
        | some v =>
            match substituteGo context fuel (rest.dropWhile isWordChar) with
            | .error e => .error e
            | .ok out => .ok (v.toJsString.data ++ out)
      else if c.isDigit then
        -- a word run led by a digit never matches the pattern and is copied
        match substituteGo context fuel (rest.dropWhile isWordChar) with
        | .error e => .error e
        | .ok out => .ok ((c :: rest.takeWhile isWordChar) ++ out)
      else
        match substituteGo context fuel rest with
        | .error e => .error e
        | .ok out => .ok (c :: out)

/-- `substituteVariables` (`evaluator.ts:97-109`; the parser copy at
`evaluator.ts:354-362` is identical).  The `RuleEvaluator` version also
builds `const scope = { ...this.mathScope, ...context }`, but that
binding is dead: the replacer consults `context` only. -/
def substituteVariablesCore (expression : String) (context : Context) :
    Except String String :=
  match substituteGo context expression.data.length expression.data with
  | .error e => .error e
  | .ok out => .ok (String.mk out)

namespace RuleEvaluator

/-- The error constructor used by `RuleEvaluator` methods. -/
def evErr (msg : String) : DslError := .evaluatorError msg none

/-- `RuleEvaluator.evaluateCondition` (`evaluator.ts:64-95`). -/
def evaluateCondition (condition : Condition) (context : Context) :
    Except DslError Bool :=
  mapErr evErr (evaluateConditionCore condition context)

/-- `RuleEvaluator.evaluateConditions` (`evaluator.ts:60-62`). -/
def evaluateConditions (conditions : List Condition) (context : Context) :
    Except DslError Bool :=
  mapErr evErr (evaluateConditionsCore conditions context)

/-- `RuleEvaluator.substituteVariables` (`evaluator.ts:97-109`). -/
def substituteVariables (expression : String) (context : Context) :
    Except DslError String :=
  mapErr evErr (substituteVariablesCore expression context)

/-- `RuleEvaluator.evaluateExpression` (`evaluator.ts:111-128`): run the
backend (`math.evaluate(expression, this.mathScope)`), require a finite
number, and wrap any failure in `EvaluatorError('Failed to evaluate
expression', ...)`. -/
def evaluateExpression (backend : Backend) (expression : String) :
    Except DslError JsNum :=
  match backend expression with
  | .error m =>
      .error (.evaluatorError "Failed to evaluate expression" (some (.hostError m)))
  | .ok result =>
      match result with
      | .scalar (.num n) =>
          if n.isFinite then .ok n
          else
            .error (.evaluatorError "Failed to evaluate expression"
              (some (.hostError "Expression must evaluate to a finite number")))
      | _ =>
          .error (.evaluatorError "Failed to evaluate expression"
            (some (.hostError "Expression must evaluate to a finite number")))

/-- The `try` body of `RuleEvaluator.evaluateRule` (`evaluator.ts:44-50`). -/
def evaluateRuleBody (backend : Backend) (rule : Rule) (context : Context) :
    Except DslError JsNum :=
  match evaluateConditions rule.conditions context with
  | .error e => .error e
  | .ok false => .ok (.fin 0)
  | .ok true =>
      match substituteVariables rule.calculation.expression context with
      | .error e => .error e
      | .ok expression => evaluateExpression backend expression

/-- `RuleEvaluator.evaluateRule` (`evaluator.ts:43-58`): the `try` body,
with any thrown error wrapped in `EvaluatorError('Failed to evaluate
rule', { rule, context, originalError })`. -/
def evaluateRule (backend : Backend) (rule : Rule) (context : Context) :
    Except DslError JsNum :=
  match evaluateRuleBody backend rule context with
  | .ok v => .ok v
  | .error e => .error (.evaluatorError "Failed to evaluate rule" (some e))

end RuleEvaluator

namespace TreeParserEval

/-- The error constructor used by the `IndentedTreeParser` evaluation
methods (`evaluator.ts:300-375`). -/
def pErr (msg : String) : DslError := .parserError msg none

/-- `IndentedTreeParser.evaluateCondition` (`evaluator.ts:321-352`). -/
def evaluateCondition (condition : Condition) (context : Context) :
    Except DslError Bool :=
  mapErr pErr (evaluateConditionCore condition context)

/-- `IndentedTreeParser.evaluateConditions` (`evaluator.ts:317-319`). -/
def evaluateConditions (conditions : List Condition) (context : Context) :
    Except DslError Bool :=
  mapErr pErr (evaluateConditionsCore conditions context)

/-- `IndentedTreeParser.substituteVariables` (`evaluator.ts:354-362`). -/
def substituteVariables (expression : String) (context : Context) :
    Except DslError String :=
  mapErr pErr (substituteVariablesCore expression context)

/-- `IndentedTreeParser.evaluateExpression` (`evaluator.ts:364-375`):
`return Function("return " + expression)()` — the backend result is
returned as-is, with NO finiteness or type check; only a thrown host
exception is wrapped in `ParserError('Failed to evaluate expression')`. -/
def evaluateExpression (backend : Backend) (expression : String) :
    Except DslError Value :=
  match backend expression with
  | .ok v => .ok v
  | .error m =>
      .error (.parserError "Failed to evaluate expression" (some (.hostError m)))

/-- The `try` body of `IndentedTreeParser.evaluateRule`
(`evaluator.ts:301-307`). -/
def evaluateRuleBody (backend : Backend) (rule : Rule) (context : Context) :
    Except DslError Value :=
  match evaluateConditions rule.conditions context with
  | .error e => .error e
  | .ok false => .ok (.scalar (.num (.fin 0)))
  | .ok true =>
      match substituteVariables rule.calculation.expression context with
      | .error e => .error e
      | .ok expression => evaluateExpression backend expression

/-- `IndentedTreeParser.evaluateRule` (`evaluator.ts:300-315`): the
`try` body, with any thrown error wrapped in `ParserError('Failed to
evaluate rule', ...)`. -/
def evaluateRule (backend : Backend) (rule : Rule) (context : Context) :
    Except DslError Value :=
  match evaluateRuleBody backend rule context with
  | .ok v => .ok v
  | .error e => .error (.parserError "Failed to evaluate rule" (some e))

end TreeParserEval

/-! ### A concrete backend for the arithmetic fragment

Modelled from the spec: the host expression backends — `math.evaluate`
(mathjs) for `RuleEvaluator` and `Function("return " + e)()` for
`IndentedTreeParser` — are external libraries, not code of this
repository.  §4.5 of the spec fixes their semantics on the arithmetic
fragment: `+ - * /`, unary minus, parentheses, standard precedence,
native (IEEE) numeric semantics.  `arithEvaluate` implements exactly
that fragment over `JsNum`; the named functions of §4.5 are not needed
by any theorem below, whose statements about the wrappers are
backend-parametric. -/

/-- A token of the arithmetic fragment. -/
inductive ATok where
  | num (n : ℚ)
  | plus
  | minus
  | star
  | slash
  | lparen
  | rparen
deriving DecidableEq, Repr

/-- The digits of a fractional part, when the input starts with `.`
followed by digits. -/
def fracPartDigits : List Char → List Char
  | '.' :: r => r.takeWhile Char.isDigit
  | _ => []

/-- What remains after an optional fractional part. -/
def stripFracPart : List Char → List Char
  | '.' :: r => r.dropWhile Char.isDigit
  | l => l

theorem length_stripFracPart_le (l : List Char) :
    (stripFracPart l).length ≤ l.length := by
  rw [stripFracPart.eq_def]
  split
  · next r =>
      have := length_dropWhile_le Char.isDigit r
      simp
      omega
  · exact Nat.le_refl _

/-- Tokenize an arithmetic expression: spaces skipped, decimal literals,
the four operators and parentheses; any other character is a host
syntax error.  The fuel is the input length (every step consumes at
least one character). -/
def aTokenize : Nat → List Char → Except String (List ATok)
  | _, [] => .ok []
  | 0, _ :: _ => .error "tokenizer fuel exhausted"
  | fuel + 1, c :: rest =>
      if isJsSpace c then aTokenize fuel rest
      else if c.isDigit then
        let intDigits := c :: rest.takeWhile Char.isDigit
        let afterInt := rest.dropWhile Char.isDigit
        let fracDs := fracPartDigits afterInt
        let mag : ℚ := decimalToRat false intDigits fracDs
        match aTokenize fuel (stripFracPart afterInt) with
        | .error e => .error e
        | .ok toks => .ok (.num mag :: toks)
      else
        let tok? : Option ATok :=
          if c = '+' then some .plus
          else if c = '-' then some .minus
          else if c = '*' then some .star
          else if c = '/' then some .slash
          else if c = '(' then some .lparen
          else if c = ')' then some .rparen
          else none
        match tok? with
        | none => .error ("Unexpected token " ++ String.mk [c])
        | some t =>
            match aTokenize fuel rest with
            | .error e => .error e
            | .ok toks => .ok (t :: toks)

mutual

/-- `expr := term (('+' | '-') term)*`, fuelled recursive descent. -/
def aExpr : Nat → List ATok → Except String (JsNum × List ATok)
  | 0, _ => .error "fuel exhausted"
  | fuel + 1, toks =>
      match aTerm fuel toks with
      | .error e => .error e
      | .ok (v, rest) => aExprLoop fuel v rest

/-- The left-associative `+`/`-` loop. -/
def aExprLoop : Nat → JsNum → List ATok → Except String (JsNum × List ATok)
  | 0, _, _ => .error "fuel exhausted"
  | fuel + 1, acc, toks =>
      match toks with
      | .plus :: rest =>
          match aTerm fuel rest with
          | .error e => .error e
          | .ok (v, rest') => aExprLoop fuel (acc.add v) rest'
      | .minus :: rest =>
          match aTerm fuel rest with
          | .error e => .error e
          | .ok (v, rest') => aExprLoop fuel (acc.sub v) rest'
      | _ => .ok (acc, toks)

/-- `term := factor (('*' | '/') factor)*`. -/
def aTerm : Nat → List ATok → Except String (JsNum × List ATok)
  | 0, _ => .error "fuel exhausted"
  | fuel + 1, toks =>
      match aFactor fuel toks with
      | .error e => .error e
      | .ok (v, rest) => aTermLoop fuel v rest

/-- The left-associative `*`/`/` loop. -/
def aTermLoop : Nat → JsNum → List ATok → Except String (JsNum × List ATok)
  | 0, _, _ => .error "fuel exhausted"
  | fuel + 1, acc, toks =>
      match toks with
      | .star :: rest =>
          match aFactor fuel rest with
          | .error e => .error e
          | .ok (v, rest') => aTermLoop fuel (acc.mul v) rest'
      | .slash :: rest =>
          match aFactor fuel rest with
          | .error e => .error e
          | .ok (v, rest') => aTermLoop fuel (acc.div v) rest'
      | _ => .ok (acc, toks)

/-- `factor := '-' factor | '(' expr ')' | number`. -/
def aFactor : Nat → List ATok → Except String (JsNum × List ATok)
  | 0, _ => .error "fuel exhausted"
  | fuel + 1, toks =>
      match toks with
      | .minus :: rest =>
          match aFactor fuel rest with
          | .error e => .error e
          | .ok (v, rest') => .ok (v.neg, rest')
      | .lparen :: rest =>
          match aExpr fuel rest with
          | .error e => .error e
          | .ok (v, rest') =>
              match rest' with
              | .rparen :: rest'' => .ok (v, rest'')
              | _ => .error "Expected closing parenthesis"
      | .num n :: rest => .ok (.fin n, rest)
      | _ => .error "Unexpected token"

end

/-- Modelled from the spec: the host expression backends
(`math.evaluate` from mathjs; `Function("return " + e)()`) are external
libraries, not files of this repository; §4.5 fixes their arithmetic
semantics (`+ - * /`, unary minus, parentheses, standard precedence,
native numeric semantics), which this backend implements via the
tokenizer and recursive-descent parser above. -/
def arithEvaluate : Backend := fun s =>
  match aTokenize s.data.length s.data with
  | .error e => .error e
  | .ok toks =>
      match aExpr (toks.length * 2 + 2) toks with
      | .error e => .error e
      | .ok (v, []) => .ok (.scalar (.num v))
      | .ok (_, _) => .error "Unexpected trailing tokens"

namespace RuleValidator

/-- `RuleValidator.validOperators` (`validation.ts:11`). -/
def validOperators : List String := ["==", "!=", ">", "<", ">=", "<=", "in"]

/-- `RuleValidator.validFields` (`validation.ts:12-55`). -/
def validFields : List String :=
  ["sale_amount", "product_type", "product_category", "region",
   "monthly_sales", "is_new_customer", "total_monthly_sales", "team_size",
   "team_monthly_sales", "team_attendance_rate", "is_seasonal_promotion",
   "customer_loyalty_years", "payment_method", "primary_product_amount",
   "cross_sold_products", "cross_sold_amount", "account_type",
   "contract_value", "contract_duration", "payment_received_within_days",
   "referred_customer", "referred_sale_amount", "referral_source",
   "bundle_items", "bundle_value", "bundle_discount", "quarter",
   "quarterly_sales", "quarterly_target_achievement", "customer_tenure",
   "renewal_amount", "renewal_products", "is_emergency_order",
   "delivery_time", "order_value", "is_international_sale", "currency",
   "is_new_product_launch", "launch_period_days", "launch_sales",
   "customer_satisfaction_score", "repeat_purchase"]

/-- The rule-name pattern `^[a-zA-Z][a-zA-Z0-9_ ]*$` (`validation.ts:72`). -/
def namePatternTest (name : String) : Bool :=
  match name.data with
  | [] => false
  | c :: rest =>
      c.isAlpha && rest.all (fun ch => ch.isAlpha || ch.isDigit || ch = '_' || ch = ' ')

/-- `validateRuleName` (`validation.ts:65-75`).  `!name` is true exactly
for the empty string (`name` is statically a string, so the `typeof`
test cannot fail). -/
def validateRuleName (name : String) : Except DslError Unit :=
  if name.isEmpty then
    .error (.validationError "Rule name is required and must be a string")
  else if name.length > 100 then
    .error (.validationError "Rule name must be less than 100 characters")
  else if ¬ namePatternTest name then
    .error (.validationError
      "Rule name must start with a letter and contain only letters, numbers, spaces, and underscores")
  else .ok ()

/-- `validatePriority` (`validation.ts:77-84`).  `typeof priority` is
always `number`; `Number.isInteger` on the rational model is a
denominator-one test. -/
def validatePriority (priority : ℚ) : Except DslError Unit :=
  if priority.den ≠ 1 then
    .error (.validationError "Priority must be an integer")
  else if priority < 1 ∨ priority > 100 then
    .error (.validationError "Priority must be between 1 and 100")
  else .ok ()

/-- `validateConditionValue` (`validation.ts:120-144`).  In the non-`in`
branch the `undefined`/`null` test cannot fail: the embedded `Value`
type has no such inhabitants. -/
def validateConditionValue (condition : Condition) (index : Nat) :
    Except DslError Unit :=
  if condition.operator = "in" then
    match condition.value with
    | .arr xs =>
        if xs.length = 0 then
          .error (.validationError
            ("Array value cannot be empty in condition " ++ toString (index + 1)))
        else if xs.length > 10 then
          .error (.validationError
            ("Array value cannot have more than 10 items in condition " ++ toString (index + 1)))
        else .ok ()
    | _ =>
        .error (.validationError
          ("Operator 'in' requires an array value in condition " ++ toString (index + 1)))
  else .ok ()

/-- `validateCondition` (`validation.ts:102-118`). -/
def validateCondition (condition : Condition) (index : Nat) :
    Except DslError Unit :=
  if ¬ validFields.contains condition.field then
    .error (.validationError
      ("Invalid field '" ++ condition.field ++ "' in condition " ++ toString (index + 1)))
  else if ¬ validOperators.contains condition.operator then
    .error (.validationError
      ("Invalid operator '" ++ condition.operator ++ "' in condition " ++ toString (index + 1)))
  else validateConditionValue condition index

/-- The `conditions.forEach` loop of `validateConditions`
(`validation.ts:97-99`), index-carrying. -/
def validateConditionsFrom : List Condition → Nat → Except DslError Unit
  | [], _ => .ok ()
  | c :: rest, index =>
      match validateCondition c index with
      | .error e => .error e
      | .ok () => validateConditionsFrom rest (index + 1)

/-- `validateConditions` (`validation.ts:86-100`).  `Array.isArray`
always holds for the embedded list. -/
def validateConditions (conditions : List Condition) : Except DslError Unit :=
  if conditions.length = 0 then
    .error (.validationError "At least one condition is required")
  else if conditions.length > 10 then
    .error (.validationError "Maximum of 10 conditions allowed per rule")
  else validateConditionsFrom conditions 0

/-- Is `c` in the calculation character set `[a-zA-Z0-9_+\-*/(). ]`? -/
def isCalcChar (c : Char) : Bool :=
  c.isAlpha || c.isDigit ||
    c = '_' || c = '+' || c = '-' || c = '*' || c = '/' ||
    c = '(' || c = ')' || c = '.' || c = ' '

/-- The parenthesis scan of `validateCalculation`
(`validation.ts:166-182`): the running counter must never go negative
and must end at zero (both failures carry the same message). -/
def balancedParens : List Char → Int → Bool
  | [], depth => depth = 0
  | c :: rest, depth =>
      let depth' := if c = '(' then depth + 1 else if c = ')' then depth - 1 else depth
      if depth' < 0 then false else balancedParens rest depth'

/-- `validateCalculation` (`validation.ts:146-183`).  The
`typeof expression !== 'string'` guard cannot fail in the embedding. -/
def validateCalculation (calculation : Calculation) : Except DslError Unit :=
  let expression := jsTrim calculation.expression
  if expression.isEmpty then
    .error (.validationError "Calculation expression cannot be empty")
  else if ¬ expression.data.all isCalcChar then
    .error (.validationError "Calculation expression contains invalid characters")
  else if ¬ balancedParens expression.data 0 then
    .error (.validationError "Unbalanced parentheses in calculation expression")
  else .ok ()

/-- `validateNotes` (`validation.ts:185-192`): the `typeof` guard cannot
fail; `notes && notes.length > 500` is length-500 check on a present,
non-empty string (and an empty string has length 0 anyway). -/
def validateNotes (notes : Option String) : Except DslError Unit :=
  match notes with
  | none => .ok ()
  | some s =>
      if s.length > 500 then
        .error (.validationError "Notes must be less than 500 characters")
      else .ok ()

/-- `validateRule` (`validation.ts:57-63`): the five checks in their
fixed order, the first thrown error propagating. -/
def validateRule (rule : Rule) : Except DslError Unit :=
  match validateRuleName rule.name with
  | .error e => .error e
  | .ok () =>
      match validatePriority rule.priority with
      | .error e => .error e
      | .ok () =>
          match validateConditions rule.conditions with
          | .error e => .error e
          | .ok () =>
              match validateCalculation rule.calculation with
              | .error e => .error e
              | .ok () => validateNotes rule.notes

end RuleValidator

/-! ### The parsimmon grammar (`IndentedTreeParser`, `evaluator.ts:394-460`)

Parsimmon parsers are modelled as functions from the remaining input to
`Option (result × rest)`.  `P.alt` is ordered choice: the first
alternative that succeeds is committed to, and a later failure of the
surrounding parser does not backtrack into it.  `P.regexp` applies its
regex anchored at the current position. -/

/-- Consume a literal (`P.string`). -/
def tryLit (s : String) (l : List Char) : Option (List Char) :=
  if s.data.isPrefixOf l then some (l.drop s.data.length) else none

/-- `whitespace = P.regexp(/\s*/)` — greedy, always succeeds, and `\s`
also matches a newline. -/
def wsSkip (l : List Char) : List Char := l.dropWhile isJsSpace

/-- `identifier = P.regexp(/[a-zA-Z_][a-zA-Z0-9_]*)/` (greedy). -/
def identP : List Char → Option (String × List Char)
  | [] => none
  | c :: rest =>
      if isIdentStartChar c then
        some (String.mk (c :: rest.takeWhile isWordChar), rest.dropWhile isWordChar)
      else none

/-- The optional fractional part `([.][0-9]+)?` of the number regex:
consumed only when the dot is followed by at least one digit. -/
def jsNumFracPart (l : List Char) : List Char × List Char :=
  match l with
  | '.' :: r =>
      let ds := r.takeWhile Char.isDigit
      if ds.isEmpty then ([], l) else (ds, r.dropWhile Char.isDigit)
  | _ => ([], l)

/-- `number = P.regexp(...).map(Number)` with the pattern
`-?(0|[1-9][0-9]*)([.][0-9]+)?`.  The alternation is ordered: a leading
`0` matches the `0` branch alone, so `012` parses as the number `0`
with `12` left over. -/
def numberLitP (l : List Char) : Option (ℚ × List Char) :=
  let (neg, l1) : Bool × List Char := match l with
    | '-' :: r => (true, r)
    | _ => (false, l)
  match l1 with
  | [] => none
  | c :: r =>
      if c = '0' then
        let (fds, rest) := jsNumFracPart r
        some (decimalToRat neg ['0'] fds, rest)
      else if c.isDigit then
        let intDs := c :: r.takeWhile Char.isDigit
        let (fds, rest) := jsNumFracPart (r.dropWhile Char.isDigit)
        some (decimalToRat neg intDs fds, rest)
      else none

/-- `string = P.regexp(/"([^"]*)"/, 1)` — note `[^"]` also matches a
newline. -/
def stringLitP : List Char → Option (String × List Char)
  | '"' :: r =>
      let content := r.takeWhile (· ≠ '"')
      match r.dropWhile (· ≠ '"') with
      | '"' :: r2 => some (String.mk content, r2)
      | _ => none
  | _ => none

/-- `boolean = P.alt(P.string('true').result(true), P.string('false').result(false))`. -/
def boolP (l : List Char) : Option (Bool × List Char) :=
  match tryLit "true" l with
  | some r => some (true, r)
  | none =>
      match tryLit "false" l with
      | some r => some (false, r)
      | none => none

/-- `operator` (`evaluator.ts:405-413`): ordered alternation of the
seven literals, longest lookalikes first. -/
def opP (l : List Char) : Option (String × List Char) :=
  match tryLit "==" l with
  | some r => some ("==", r)
  | none =>
  match tryLit "!=" l with
  | some r => some ("!=", r)
  | none =>
  match tryLit ">=" l with
  | some r => some (">=", r)
  | none =>
  match tryLit "<=" l with
  | some r => some ("<=", r)
  | none =>
  match tryLit ">" l with
  | some r => some (">", r)
  | none =>
  match tryLit "<" l with
  | some r => some ("<", r)
  | none =>
  match tryLit "in" l with
  | some r => some ("in", r)
  | none => none

/-- `value = P.alt(number, string, boolean, identifier)`
(`evaluator.ts:415-420`): there is no array-literal alternative; a bare
identifier yields its matched text as a string literal. -/
def valueP (l : List Char) : Option (Value × List Char) :=
  match numberLitP l with
  | some (q, r) => some (.scalar (.num (.fin q)), r)
  | none =>
  match stringLitP l with
  | some (s, r) => some (.scalar (.str s), r)
  | none =>
  match boolP l with
  | some (b, r) => some (.scalar (.bool b), r)
  | none =>
  match identP l with
  | some (s, r) => some (.scalar (.str s), r)
  | none => none

/-- `priority = P.string('(').then(P.regexp(/\d+/).map(Number)).skip(P.string(')'))`. -/
def priorityP : List Char → Option (ℚ × List Char)
  | '(' :: r =>
      let ds := r.takeWhile Char.isDigit
      if ds.isEmpty then none
      else
        match r.dropWhile Char.isDigit with
        | ')' :: r2 => some ((digitsToNat ds : ℚ), r2)
        | _ => none
  | _ => none

/-- `ruleHeader = P.seq(identifier.skip(whitespace), priority)`. -/
def ruleHeaderP (l : List Char) : Option ((String × ℚ) × List Char) :=
  match identP l with
  | none => none
  | some (name, r) =>
      match priorityP (wsSkip r) with
      | none => none
      | some (priority, r2) => some ((name, priority), r2)

/-- `condition = P.seq(identifier.skip(whitespace), operator.skip(whitespace), value)`. -/
def conditionP (l : List Char) : Option (Condition × List Char) :=
  match identP l with
  | none => none
  | some (field, r) =>
      match opP (wsSkip r) with
      | none => none
      | some (operator, r2) =>
          match valueP (wsSkip r2) with
          | none => none
          | some (value, r3) => some (⟨field, operator, value⟩, r3)

/-- A classified line (`ParsedLine`, `evaluator.ts:387-392`); the
indentation depth is recorded by the grammar but discarded by the
assembly loop, which destructures `[_, line]`. -/
inductive ParsedLine where
  | rule (name : String) (priority : ℚ)
  | whenMark
  | thenMark
  | notesMark
  | condition (c : Condition)
  | calculation (c : Calculation)
  | note (s : String)
deriving DecidableEq, Repr

/-- `indent.many`: strip leading groups of exactly four spaces
(`indent = P.regexp(/^[ ]{4}/)`). -/
def indentsSkip : List Char → List Char
  | ' ' :: ' ' :: ' ' :: ' ' :: rest => indentsSkip rest
  | l => l

/-- `section = P.alt(P.string('When')..., P.string('Then')..., P.string('Notes')...)`. -/
def sectionP (l : List Char) : Option (ParsedLine × List Char) :=
  match tryLit "When" l with
  | some r => some (.whenMark, r)
  | none =>
  match tryLit "Then" l with
  | some r => some (.thenMark, r)
  | none =>
  match tryLit "Notes" l with
  | some r => some (.notesMark, r)
  | none => none

/-- `calculation = P.regexp(/.*/).map(expr => ({ expression: expr.trim() }))`:
`.` does not match a newline, so this consumes the rest of the physical
line (possibly nothing) and always succeeds. -/
def calculationP (l : List Char) : Option (ParsedLine × List Char) :=
  some (.calculation ⟨jsTrim (String.mk (l.takeWhile (· ≠ '\n')))⟩,
        l.dropWhile (· ≠ '\n'))

/-- The ordered alternation inside `line` (`evaluator.ts:451-457`).  The
trailing `note` alternative is textually present in the source but
unreachable: `calculation` accepts every input first. -/
def lineAltP (l : List Char) : Option (ParsedLine × List Char) :=
  match ruleHeaderP l with
  | some ((name, priority), r) => some (.rule name priority, r)
  | none =>
  match sectionP l with
  | some (v, r) => some (v, r)
  | none =>
  match conditionP l with
  | some (c, r) => some (.condition c, r)
  | none =>
  match calculationP l with
  | some (v, r) => some (v, r)
  | none =>
      -- the note alternative, never reached because calculationP is total
      some (.note (jsTrim (String.mk (l.takeWhile (· ≠ '\n')))), l.dropWhile (· ≠ '\n'))

/-- `line = P.seq(indent.many, P.alt(...))` (`evaluator.ts:449-458`). -/
def lineP (l : List Char) : Option (ParsedLine × List Char) :=
  lineAltP (indentsSkip l)

/-- The `(newline then line).many()` tail of
`parser = line.sepBy(newline)`.  Each iteration consumes the newline
first, so input-length fuel is exact; a failing iteration backtracks to
before its separator (parsimmon `many`). -/
def sepRest : Nat → List Char → List ParsedLine × List Char
  | 0, l => ([], l)
  | fuel + 1, l =>
      match l with
      | '\n' :: r =>
          match lineP r with
          | none => ([], l)
          | some (v, r2) =>
              let (vs, r3) := sepRest fuel r2
              (v :: vs, r3)
      | _ => ([], l)

/-- `IndentedTreeParser.parser.parse(ruleText)` (`evaluator.ts:460,469`):
`line.sepBy(newline)` followed by the end-of-input check that `.parse`
adds; `none` models `{ status: false }`. -/
def parseLinesRun (text : String) : Option (List ParsedLine) :=
  match lineP text.data with
  | none => none
  | some (v, r) =>
      let (vs, r2) := sepRest text.data.length r
      if r2.isEmpty then some (v :: vs) else none

/-- The local state of the assembly loop in `parseRule`
(`evaluator.ts:474-478`).  `currentRule` only ever contributes its
`name` and `priority` to the rest of the function; the `conditions`
accumulator is a separate variable that a later rule-header line does
not reset. -/
structure Draft where
  curName : Option String := none
  curPriority : Option ℚ := none
  currentSection : Option String := none
  conditions : List Condition := []
  calculation : Option Calculation := none
  notes : List String := []
deriving DecidableEq, Repr

/-- One iteration of the `for ... of lines.value` loop
(`evaluator.ts:480-514`): lines of a type not admissible for the open
section are silently dropped. -/
def assembleStep (d : Draft) (line : ParsedLine) : Draft :=
  match line with
  | .rule name priority => { d with curName := some name, curPriority := some priority }
  | .whenMark => { d with currentSection := some "when" }
  | .thenMark => { d with currentSection := some "then" }
  | .notesMark => { d with currentSection := some "notes" }
  | .condition c =>
      if d.currentSection = some "when" then { d with conditions := d.conditions ++ [c] }
      else d
  | .calculation c =>
      if d.currentSection = some "then" then { d with calculation := some c }
      else d
  | .note s =>
      if d.currentSection = some "notes" then { d with notes := d.notes ++ [s] }
      else d

/-- The whole assembly loop. -/
def assembleDraft (lines : List ParsedLine) : Draft :=
  lines.foldl assembleStep {}

/-- JavaScript falsiness of `currentRule.name`: absent or empty. -/
def nameFalsy : Option String → Bool
  | none => true
  | some s => s.isEmpty

/-- JavaScript falsiness of `currentRule.priority`: absent or zero
(`NaN`, also falsy, cannot come out of the digit regex). -/
def priorityFalsy : Option ℚ → Bool
  | none => true
  | some q => q = 0

/-- The message of the grammar-failure branch
(`evaluator.ts:471`): the real message appends
`lines.expected.join(', ')`; the expected-token list is not modelled
and the claims below depend only on which branch raised. -/
def grammarFailureMessage : String := "Failed to parse rule: "

/-- The `try` body of `IndentedTreeParser.parseRule`
(`evaluator.ts:468-531`): run the grammar, assemble the draft, apply
the presence check `!currentRule.name || !currentRule.priority ||
!calculation`, build the `Rule`, and validate it. -/
def parseRuleBody (ruleText : String) : Except DslError Rule :=
  match parseLinesRun ruleText with
  | none => .error (.parserError grammarFailureMessage none)
  | some lines =>
      let d := assembleDraft lines
      if nameFalsy d.curName ∨ priorityFalsy d.curPriority ∨ d.calculation.isNone then
        .error (.parserError "Invalid rule structure: missing required sections" none)
      else
        match d.curName, d.curPriority, d.calculation with
        | some name, some priority, some calculation =>
            let rule : Rule :=
              { name := name, priority := priority, conditions := d.conditions,
                calculation := calculation,
                notes := if d.notes.length > 0
                  then some (String.intercalate "\n" d.notes) else none }
            match RuleValidator.validateRule rule with
            | .error e => .error e
            | .ok () => .ok rule
        | _, _, _ =>
            -- unreachable: the falsiness test above already required all three
            .error (.parserError "Invalid rule structure: missing required sections" none)

/-- `IndentedTreeParser.parseRule` (`evaluator.ts:467-538`): the `catch`
re-throws a `ValidationError` unchanged and wraps every other error in
`ParserError('Failed to parse rule', { originalError })`. -/
def parseRule (ruleText : String) : Except DslError Rule :=
  match parseRuleBody ruleText with
  | .ok r => .ok r
  | .error (.validationError m) => .error (.validationError m)
  | .error e => .error (.parserError "Failed to parse rule" (some e))

/-! ### Store-threading translation of `RuleEvaluator.evaluateRule`

To state the frame property (the call mutates neither its `Rule` nor
its `Context` argument) the two heap objects are threaded explicitly as
a store through a second translation of `evaluateRule` and each of its
callees.  Every statement of the source either reads a field of the
store (`rule.conditions`, `context[...]`, `rule.calculation.expression`)
or builds transient local state (`scope`, the replaced string, the
backend result); none assigns into `rule` or `context`, so each
translated step returns the store it received alongside its result. -/

/-- The store seen by an evaluation call. -/
structure EvalStore where
  rule : Rule
  context : Context

/-- `evaluateCondition`, store-threading: three reads
(`condition.field` lookup, `condition.value` re-resolution, operator
dispatch), no write. -/
def evaluateConditionSt (condition : Condition) (st : EvalStore) :
    (Except DslError Bool) × EvalStore :=
  (RuleEvaluator.evaluateCondition condition st.context, st)

/-- `evaluateConditions`, store-threading through `every`. -/
def evaluateConditionsSt : List Condition → EvalStore →
    (Except DslError Bool) × EvalStore
  | [], st => (.ok true, st)
  | c :: rest, st =>
      match evaluateConditionSt c st with
      | (.error e, st1) => (.error e, st1)
      | (.ok false, st1) => (.ok false, st1)
      | (.ok true, st1) => evaluateConditionsSt rest st1

/-- `substituteVariables`, store-threading: reads `context` per matched
token, builds a fresh string. -/
def substituteVariablesSt (expression : String) (st : EvalStore) :
    (Except DslError String) × EvalStore :=
  (RuleEvaluator.substituteVariables expression st.context, st)

/-- `RuleEvaluator.evaluateRule`, store-threading. -/
def evaluateRuleSt (backend : Backend) (st : EvalStore) :
    (Except DslError JsNum) × EvalStore :=
  match evaluateConditionsSt st.rule.conditions st with
  | (.error e, st1) => (.error (.evaluatorError "Failed to evaluate rule" (some e)), st1)
  | (.ok false, st1) => (.ok (.fin 0), st1)
  | (.ok true, st1) =>
      match substituteVariablesSt st1.rule.calculation.expression st1 with
      | (.error e, st2) => (.error (.evaluatorError "Failed to evaluate rule" (some e)), st2)
      | (.ok expression, st2) =>
          match RuleEvaluator.evaluateExpression backend expression with
          | .ok v => (.ok v, st2)
          | .error e => (.error (.evaluatorError "Failed to evaluate rule" (some e)), st2)

/-! ### Concrete rules and contexts used by the theorems below -/

/-- The condition `sale_amount > 0`. -/
def saleGtZero : Condition := ⟨"sale_amount", ">", .scalar (.num (.fin 0))⟩

/-- The `Basic Sales Commission` rule of the reference tests. -/
def basicCommissionRule : Rule :=
  { name := "Basic Sales Commission", priority := 1,
    conditions := [saleGtZero], calculation := ⟨"sale_amount * 0.05"⟩ }

/-- `{ sale_amount: 1000 }`. -/
def saleContext1000 : Context := [("sale_amount", .scalar (.num (.fin 1000)))]

/-- `{ sale_amount: 0 }`. -/
def saleContextZero : Context := [("sale_amount", .scalar (.num (.fin 0)))]

/-- The `Math Functions` rule of the reference tests. -/
def mathFunctionsRule : Rule :=
  { name := "Math Functions", priority := 6, conditions := [saleGtZero],
    calculation := ⟨"round(sale_amount * 0.05) + min(sale_amount, 1000)"⟩ }

/-- `{ sale_amount: 1234.56 }`. -/
def mathFunctionsContext : Context :=
  [("sale_amount", .scalar (.num (.fin (mkRat 123456 100))))]

/-- The `Category Bonus` rule block of the reference tests, with a
one-word rule name so that the header line parses (the grammar's
`identifier` admits no spaces). -/
def categoryRuleText : String :=
  "CategoryBonus (3)\nWhen\n    product_category in [electronics, furniture]\n    sale_amount >= 20000\nThen\n    sale_amount * 0.03"

/-- The condition `sale_amount >= 20000`. -/
def saleGte20000 : Condition := ⟨"sale_amount", ">=", .scalar (.num (.fin 20000))⟩

/-- What `parseRule` actually produces for `categoryRuleText`: the
`in`-condition is gone. -/
def parsedCategoryRule : Rule :=
  { name := "CategoryBonus", priority := 3, conditions := [saleGte20000],
    calculation := ⟨"sale_amount * 0.03"⟩, notes := none }

/-- `{ product_category: "clothing", sale_amount: 25000 }`. -/
def clothingContext : Context :=
  [("product_category", .scalar (.str "clothing")),
   ("sale_amount", .scalar (.num (.fin 25000)))]

/-- `{ product_category: "electronics", sale_amount: 25000 }`. -/
def electronicsContext : Context :=
  [("product_category", .scalar (.str "electronics")),
   ("sale_amount", .scalar (.num (.fin 25000)))]

/-- An `in`-condition whose stored value is a scalar, not an array. -/
def inScalarCondition : Condition := ⟨"region", "in", .scalar (.num (.fin 5))⟩

/-- The condition `sale_amount == 99`. -/
def eq99Condition : Condition := ⟨"sale_amount", "==", .scalar (.num (.fin 99))⟩

/-- A rule whose first condition throws and whose second is false. -/
def gateErrorRule : Rule :=
  { name := "Gate Error", priority := 1,
    conditions := [inScalarCondition, eq99Condition], calculation := ⟨"7"⟩ }

/-- `{ region: 1, sale_amount: 2 }` — binds every condition field of
`gateErrorRule`. -/
def gateErrorContext : Context :=
  [("region", .scalar (.num (.fin 1))), ("sale_amount", .scalar (.num (.fin 2)))]

/-- A rule whose calculation divides by zero. -/
def divByZeroRule : Rule :=
  { name := "Div By Zero", priority := 1, conditions := [saleGtZero],
    calculation := ⟨"1/0"⟩ }

/-- A rule whose name and priority are both invalid. -/
def invalidNamePriorityRule : Rule :=
  { name := "9bad", priority := 0, conditions := [saleGtZero],
    calculation := ⟨"sale_amount"⟩ }

/-- The condition `region == "east"` as a value with no context entry. -/
def regionEqEast : Condition := ⟨"region", "==", .scalar (.str "east")⟩

/-- A condition on `quarter`, a field the contexts below do not bind. -/
def missingFieldCondition : Condition := ⟨"quarter", "==", .scalar (.num (.fin 1))⟩

/-- A rule whose first condition is false and whose second condition
reads an unbound field. -/
def missingFieldRule : Rule :=
  { name := "Missing Field Skipped", priority := 1,
    conditions := [eq99Condition, missingFieldCondition], calculation := ⟨"7"⟩ }

/-- `{ product_type: "premium" }`. -/
def fieldCompareContext : Context := [("product_type", .scalar (.str "premium"))]

/-- The text of a rule whose header carries priority `0`. -/
def priorityZeroText : String :=
  "Rule1 (0)\nWhen\n    sale_amount > 0\nThen\n    sale_amount * 0.05"

/-- The line sequence the grammar produces for `priorityZeroText`. -/
def priorityZeroLines : List ParsedLine :=
  [.rule "Rule1" 0, .whenMark, .condition saleGtZero, .thenMark,
   .calculation ⟨"sale_amount * 0.05"⟩]

/-! ### Shared lemmas -/

theorem mapErr_ok (f : String → DslError) (b : α) :
    mapErr f (.ok b) = .ok b := rfl

theorem mapErr_error {α : Type} (f : String → DslError) (m : String) :
    mapErr (α := α) f (Except.error m) = .error (f m) := rfl

theorem mapErr_eq_ok {f : String → DslError} {x : Except String α} {b : α} :
    mapErr f x = .ok b ↔ x = .ok b := by
  cases x <;> simp [mapErr]

/-- `every` on `pre ++ c :: post` when every condition of `pre` holds
and `c` is false: the scan stops at `c` with `false`. -/
theorem evaluateConditionsCore_append_false
    (context : Context) (pre post : List Condition) (c : Condition)
    (hpre : ∀ p ∈ pre, evaluateConditionCore p context = .ok true)
    (hc : evaluateConditionCore c context = .ok false) :
    evaluateConditionsCore (pre ++ c :: post) context = .ok false := by
  induction pre with
  | nil => simp [evaluateConditionsCore, hc]
  | cons p rest ih =>
      have hp := hpre p (by simp)
      have hrest : ∀ q ∈ rest, evaluateConditionCore q context = .ok true :=
        fun q hq => hpre q (by simp [hq])
      simp [evaluateConditionsCore, hp, ih hrest]

/-- `every` on `pre ++ c :: post` when every condition of `pre` holds
and `c` throws: the error propagates. -/
theorem evaluateConditionsCore_append_error
    (context : Context) (pre post : List Condition) (c : Condition) (m : String)
    (hpre : ∀ p ∈ pre, evaluateConditionCore p context = .ok true)
    (hc : evaluateConditionCore c context = .error m) :
    evaluateConditionsCore (pre ++ c :: post) context = .error m := by
  induction pre with
  | nil => simp [evaluateConditionsCore, hc]
  | cons p rest ih =>
      have hp := hpre p (by simp)
      have hrest : ∀ q ∈ rest, evaluateConditionCore q context = .ok true :=
        fun q hq => hpre q (by simp [hq])
      simp [evaluateConditionsCore, hp, ih hrest]

/-! ### The claims -/

/-- C1.  The claim: built-in function identifiers (`round`, `min`, ...)
are never treated as missing context variables during substitution, and
`round(sale_amount * 0.05) + min(sale_amount, 1000)` with
`{ sale_amount: 1234.56 }` evaluates to `1061.73`.  The code disagrees —
and contradicts its own `Math Functions` test: `substituteVariables`
looks every identifier token up in `context` alone (the merged
`scope` binding is dead), so the first function name `round` raises
`Missing required variable 'round' in context` and `evaluateRule` fails
for every backend, instead of returning a number. -/
theorem c1_function_identifiers_break_substitution (backend : Backend) :
    RuleEvaluator.evaluateRule backend mathFunctionsRule mathFunctionsContext =
      .error (.evaluatorError "Failed to evaluate rule"
        (some (.evaluatorError "Missing required variable 'round' in context" none))) := rfl

/-- C2.  The claim: the line parser recognizes the array literal
`[electronics, furniture]` in an `in` condition, and the `Category
Bonus` block parses to a rule with both conditions.  The code disagrees
— and contradicts its own `array conditions` test: the grammar's
`value` has no array alternative, so the whole `in`-condition line
falls through to the `calculation` alternative and is dropped by the
assembler (the `When` section admits no calculation line).  The parsed
rule keeps only `sale_amount >= 20000`, and both the `electronics` and
the `clothing` context therefore evaluate to 750 (the test expects 0
for `clothing`). -/
theorem c2_array_condition_dropped :
    parseRule categoryRuleText = .ok parsedCategoryRule ∧
    TreeParserEval.evaluateRule arithEvaluate parsedCategoryRule electronicsContext =
      .ok (.scalar (.num (.fin 750))) ∧
    TreeParserEval.evaluateRule arithEvaluate parsedCategoryRule clothingContext =
      .ok (.scalar (.num (.fin 750))) :=
  ⟨rfl, rfl, rfl⟩

/-- C3 (counterexample to the claim as stated).  In `gateErrorRule` the
context binds both condition fields and the second condition evaluates
to `false`, yet `evaluateRule` does not return `0`: `every` evaluates
the conditions left to right, and the first condition (`in` applied to
a scalar) throws before the false one is reached. -/
theorem c3_counterexample :
    (lookupCtx gateErrorContext inScalarCondition.field).isSome = true ∧
    (lookupCtx gateErrorContext eq99Condition.field).isSome = true ∧
    evaluateConditionCore eq99Condition gateErrorContext = .ok false ∧
    RuleEvaluator.evaluateRule arithEvaluate gateErrorRule gateErrorContext =
      .error (.evaluatorError "Failed to evaluate rule"
        (some (.evaluatorError "Operator 'in' requires an array value" none))) :=
  ⟨rfl, rfl, rfl, rfl⟩

/-- C3 (amended).  If some condition evaluates to `false` and every
condition before it evaluates to `true` (without error), then both
`evaluateRule` implementations return exactly `0` — a normal result —
for every backend and regardless of the calculation expression, which
is never evaluated. -/
theorem c3_gate_returns_zero (backend : Backend) (rule : Rule) (context : Context)
    (pre post : List Condition) (c : Condition)
    (hsplit : rule.conditions = pre ++ c :: post)
    (hpre : ∀ p ∈ pre, evaluateConditionCore p context = .ok true)
    (hc : evaluateConditionCore c context = .ok false) :
    RuleEvaluator.evaluateRule backend rule context = .ok (.fin 0) ∧
    TreeParserEval.evaluateRule backend rule context = .ok (.scalar (.num (.fin 0))) := by
  have hfalse : evaluateConditionsCore rule.conditions context = .ok false := by
    rw [hsplit]
    exact evaluateConditionsCore_append_false context pre post c hpre hc
  refine ⟨?_, ?_⟩
  · simp [RuleEvaluator.evaluateRule, RuleEvaluator.evaluateRuleBody,
      RuleEvaluator.evaluateConditions, hfalse, mapErr]
  · simp [TreeParserEval.evaluateRule, TreeParserEval.evaluateRuleBody,
      TreeParserEval.evaluateConditions, hfalse, mapErr]

/-- C3 (witness): the `Basic Sales Commission` rule with
`{ sale_amount: 0 }` — its single condition is false and the rule
evaluates to `0`. -/
theorem c3_witness :
    basicCommissionRule.conditions = [] ++ saleGtZero :: [] ∧
    evaluateConditionCore saleGtZero saleContextZero = .ok false ∧
    RuleEvaluator.evaluateRule arithEvaluate basicCommissionRule saleContextZero =
      .ok (.fin 0) :=
  ⟨rfl, rfl,
    (c3_gate_returns_zero arithEvaluate basicCommissionRule saleContextZero
      [] [] saleGtZero rfl (by simp) rfl).1⟩

/-- A value `RuleEvaluator.evaluateExpression` returns normally passed
the finiteness check. -/
theorem evaluateExpression_ok_isFinite (backend : Backend) (expression : String)
    (n : JsNum) (h : RuleEvaluator.evaluateExpression backend expression = .ok n) :
    n.isFinite = true := by
  unfold RuleEvaluator.evaluateExpression at h
  cases hback : backend expression with
  | error m => rw [hback] at h; exact absurd h (by simp)
  | ok result =>
      rw [hback] at h
      match result, h with
      | .scalar (.num k), h =>
          by_cases hfin : k.isFinite = true
          · simp only [hfin, if_true] at h
            injection h with h
            rw [← h]
            exact hfin
          · simp only [Bool.not_eq_true] at hfin
            simp [hfin] at h
      | .scalar (.str s), h => simp at h
      | .scalar (.bool b), h => simp at h
      | .arr xs, h => simp at h

/-- C4 (amended, the part that holds).  `RuleEvaluator.evaluateRule`
never returns a non-finite number: a normal return is either the gate's
`0` or a backend result that passed the
`typeof result !== 'number' || !Number.isFinite(result)` check. -/
theorem c4_result_finite (backend : Backend) (rule : Rule) (context : Context)
    (v : JsNum) (h : RuleEvaluator.evaluateRule backend rule context = .ok v) :
    v.isFinite = true := by
  unfold RuleEvaluator.evaluateRule at h
  cases hbody : RuleEvaluator.evaluateRuleBody backend rule context with
  | error e => rw [hbody] at h; exact absurd h (by simp)
  | ok w =>
      rw [hbody] at h
      injection h with h
      subst h
      unfold RuleEvaluator.evaluateRuleBody at hbody
      cases hconds : RuleEvaluator.evaluateConditions rule.conditions context with
      | error e => rw [hconds] at hbody; exact absurd hbody (by simp)
      | ok fired =>
          rw [hconds] at hbody
          cases fired with
          | false =>
              simp only [Except.ok.injEq] at hbody
              rw [← hbody]
              rfl
          | true =>
              cases hsub : RuleEvaluator.substituteVariables
                  rule.calculation.expression context with
              | error e => rw [hsub] at hbody; simp at hbody
              | ok expression =>
                  rw [hsub] at hbody
                  exact evaluateExpression_ok_isFinite backend expression w
                    (by simpa using hbody)

/-- C4 (witness): a run that returns normally, with a finite result. -/
theorem c4_witness :
    RuleEvaluator.evaluateRule arithEvaluate basicCommissionRule saleContext1000 =
      .ok (.fin 50) ∧
    (JsNum.fin 50).isFinite = true :=
  ⟨rfl, c4_result_finite arithEvaluate basicCommissionRule saleContext1000
    (.fin 50) rfl⟩

/-- C4 (counterexample to the claim as stated).  The
`IndentedTreeParser` copy of `evaluateRule` returns its backend's value
with no finiteness check: with the calculation `1/0` it returns
`Infinity` normally instead of failing. -/
theorem c4_counterexample :
    TreeParserEval.evaluateRule arithEvaluate divByZeroRule saleContext1000 =
      .ok (.scalar (.num .inf)) ∧
    JsNum.inf.isFinite = false :=
  ⟨rfl, rfl⟩

/-- C5.  `validateRule` runs its checks in the fixed order name,
priority, conditions, calculation, notes; the first failing check
short-circuits with its single `ValidationError` and later checks are
never consulted — in particular, a rule whose name check fails reports
the name error whatever the priority, so a rule with both an invalid
name and an invalid priority reports the name error. -/
theorem c5_validation_order (rule : Rule) :
    (∀ e, RuleValidator.validateRuleName rule.name = .error e →
      RuleValidator.validateRule rule = .error e) ∧
    (RuleValidator.validateRuleName rule.name = .ok () →
      ∀ e, RuleValidator.validatePriority rule.priority = .error e →
        RuleValidator.validateRule rule = .error e) ∧
    (RuleValidator.validateRuleName rule.name = .ok () →
      RuleValidator.validatePriority rule.priority = .ok () →
      ∀ e, RuleValidator.validateConditions rule.conditions = .error e →
        RuleValidator.validateRule rule = .error e) ∧
    (RuleValidator.validateRuleName rule.name = .ok () →
      RuleValidator.validatePriority rule.priority = .ok () →
      RuleValidator.validateConditions rule.conditions = .ok () →
      ∀ e, RuleValidator.validateCalculation rule.calculation = .error e →
        RuleValidator.validateRule rule = .error e) ∧
    (RuleValidator.validateRuleName rule.name = .ok () →
      RuleValidator.validatePriority rule.priority = .ok () →
      RuleValidator.validateConditions rule.conditions = .ok () →
      RuleValidator.validateCalculation rule.calculation = .ok () →
        RuleValidator.validateRule rule = RuleValidator.validateNotes rule.notes) := by
  refine ⟨?_, ?_, ?_, ?_, ?_⟩
  · intro e h
    simp [RuleValidator.validateRule, h]
  · intro h1 e h
    simp [RuleValidator.validateRule, h1, h]
  · intro h1 h2 e h
    simp [RuleValidator.validateRule, h1, h2, h]
  · intro h1 h2 h3 e h
    simp [RuleValidator.validateRule, h1, h2, h3, h]
  · intro h1 h2 h3 h4
    simp [RuleValidator.validateRule, h1, h2, h3, h4]

/-- C5 (witness): `invalidNamePriorityRule` has an invalid name
(`"9bad"`) and an invalid priority (`0`); the reported error is the
name error. -/
theorem c5_witness :
    RuleValidator.validateRuleName invalidNamePriorityRule.name =
      .error (.validationError
        "Rule name must start with a letter and contain only letters, numbers, spaces, and underscores") ∧
    RuleValidator.validatePriority invalidNamePriorityRule.priority =
      .error (.validationError "Priority must be between 1 and 100") ∧
    RuleValidator.validateRule invalidNamePriorityRule =
      .error (.validationError
        "Rule name must start with a letter and contain only letters, numbers, spaces, and underscores") :=
  ⟨rfl, rfl, (c5_validation_order invalidNamePriorityRule).1 _ rfl⟩

/-- C6 (counterexample to the claim as stated).  `missingFieldRule`'s
second condition reads the unbound field `quarter`, yet condition
evaluation does not fail: the first condition is false, `every`
short-circuits, and the rule returns `0` without ever examining the
second condition. -/
theorem c6_counterexample :
    lookupCtx saleContextZero missingFieldCondition.field = none ∧
    RuleEvaluator.evaluateConditions missingFieldRule.conditions saleContextZero =
      .ok false ∧
    RuleEvaluator.evaluateRule arithEvaluate missingFieldRule saleContextZero =
      .ok (.fin 0) :=
  ⟨rfl, rfl, rfl⟩

/-- C6 (amended).  Evaluating a single condition whose field is absent
from the context always fails with an error naming the field — a
missing field never defaults the condition to `false` — and during list
evaluation that error surfaces (in both evaluator classes) whenever
every condition before it evaluates to `true`; only an earlier `false`
condition can end the scan first, returning `0` by the earlier
condition, not by the missing-field one. -/
theorem c6_missing_field (c : Condition) (context : Context)
    (h : lookupCtx context c.field = none) :
    evaluateConditionCore c context =
      .error ("Missing required field '" ++ c.field ++ "' in context") ∧
    ∀ pre post : List Condition,
      (∀ p ∈ pre, evaluateConditionCore p context = .ok true) →
      RuleEvaluator.evaluateConditions (pre ++ c :: post) context =
        .error (.evaluatorError
          ("Missing required field '" ++ c.field ++ "' in context") none) ∧
      TreeParserEval.evaluateConditions (pre ++ c :: post) context =
        .error (.parserError
          ("Missing required field '" ++ c.field ++ "' in context") none) := by
  have hcore : evaluateConditionCore c context =
      .error ("Missing required field '" ++ c.field ++ "' in context") := by
    unfold evaluateConditionCore
    rw [h]
  refine ⟨hcore, ?_⟩
  intro pre post hpre
  have hlist := evaluateConditionsCore_append_error context pre post c _ hpre hcore
  exact ⟨by simp [RuleEvaluator.evaluateConditions, hlist, mapErr, RuleEvaluator.evErr],
         by simp [TreeParserEval.evaluateConditions, hlist, mapErr, TreeParserEval.pErr]⟩

/-- C6 (witness): the condition `region == "east"` against
`{ sale_amount: 1000 }` fails with the missing-field error, alone and
at the head of a condition list. -/
theorem c6_witness :
    lookupCtx saleContext1000 regionEqEast.field = none ∧
    evaluateConditionCore regionEqEast saleContext1000 =
      .error "Missing required field 'region' in context" ∧
    RuleEvaluator.evaluateConditions [regionEqEast] saleContext1000 =
      .error (.evaluatorError "Missing required field 'region' in context" none) :=
  ⟨rfl, (c6_missing_field regionEqEast saleContext1000 rfl).1,
    (((c6_missing_field regionEqEast saleContext1000 rfl).2 [] []
      (by simp)).1)⟩

/-- C7.  The right-hand operand the condition evaluator uses (the
source's `rightValue` binding, `rightOperand` here): a string stored
value that is itself a present context key resolves to the context's
value (field-to-field comparison); a string that is not a present key
is used as the literal string; a non-string stored value is always used
as-is. -/
theorem c7_right_operand (context : Context) (s : String) :
    (∀ v, lookupCtx context s = some v →
      rightOperand (.scalar (.str s)) context = v) ∧
    (lookupCtx context s = none →
      rightOperand (.scalar (.str s)) context = .scalar (.str s)) ∧
    (∀ w : Value, (∀ t, w ≠ .scalar (.str t)) → rightOperand w context = w) := by
  refine ⟨?_, ?_, ?_⟩
  · intro v hv
    simp [rightOperand, hv]
  · intro hnone
    simp [rightOperand, hnone]
  · intro w hw
    match w, hw with
    | .scalar (.num n), _ => rfl
    | .scalar (.bool b), _ => rfl
    | .scalar (.str t), hw => exact absurd rfl (hw t)
    | .arr xs, _ => rfl

/-- C7 (witness): against `{ product_type: "premium" }`, the stored
string `"product_type"` resolves to `"premium"`, the stored string
`"standard"` stays literal, and a stored number stays as-is. -/
theorem c7_witness :
    rightOperand (.scalar (.str "product_type")) fieldCompareContext =
      .scalar (.str "premium") ∧
    rightOperand (.scalar (.str "standard")) fieldCompareContext =
      .scalar (.str "standard") ∧
    rightOperand (.scalar (.num (.fin 5))) fieldCompareContext =
      .scalar (.num (.fin 5)) :=
  ⟨(c7_right_operand fieldCompareContext "product_type").1 _ rfl,
   (c7_right_operand fieldCompareContext "standard").2.1 rfl,
   (c7_right_operand fieldCompareContext "x").2.2 _ (by intro t ht; cases ht)⟩

/-- Unfolding `every` one condition at a time, on the wrapped
`RuleEvaluator` version. -/
theorem evaluateConditions_cons (c : Condition) (rest : List Condition)
    (context : Context) :
    RuleEvaluator.evaluateConditions (c :: rest) context =
      match RuleEvaluator.evaluateCondition c context with
      | .error e => .error e
      | .ok false => .ok false
      | .ok true => RuleEvaluator.evaluateConditions rest context := by
  unfold RuleEvaluator.evaluateConditions RuleEvaluator.evaluateCondition
  cases h : evaluateConditionCore c context with
  | error m => simp [evaluateConditionsCore, h, mapErr]
  | ok b => cases b <;> simp [evaluateConditionsCore, h, mapErr]

/-- The store-threading condition scan computes the `RuleEvaluator`
result and hands the store back unchanged. -/
theorem evaluateConditionsSt_eq (cs : List Condition) (st : EvalStore) :
    evaluateConditionsSt cs st = (RuleEvaluator.evaluateConditions cs st.context, st) := by
  induction cs with
  | nil =>
      simp [evaluateConditionsSt, RuleEvaluator.evaluateConditions,
        evaluateConditionsCore, mapErr]
  | cons c rest ih =>
      rw [evaluateConditions_cons]
      cases h : RuleEvaluator.evaluateCondition c st.context with
      | error e => simp [evaluateConditionsSt, evaluateConditionSt, h]
      | ok b =>
          cases b with
          | false => simp [evaluateConditionsSt, evaluateConditionSt, h]
          | true => simp [evaluateConditionsSt, evaluateConditionSt, h, ih]

/-- C8.  `evaluateRule` mutates neither its `Rule` nor its `Context`:
the store-threading translation, which passes the two heap objects
through every step translated from the source (none of which assigns
into them), returns the same result as `RuleEvaluator.evaluateRule` —
whether a number or an error — together with the store it was given,
unchanged. -/
theorem c8_no_mutation (backend : Backend) (rule : Rule) (context : Context) :
    evaluateRuleSt backend ⟨rule, context⟩ =
      (RuleEvaluator.evaluateRule backend rule context, ⟨rule, context⟩) := by
  unfold evaluateRuleSt RuleEvaluator.evaluateRule RuleEvaluator.evaluateRuleBody
  rw [evaluateConditionsSt_eq]
  cases h : RuleEvaluator.evaluateConditions rule.conditions context with
  | error e => simp [h]
  | ok b =>
      cases b with
      | false => simp [h]
      | true =>
          cases hs : RuleEvaluator.substituteVariables rule.calculation.expression
              context with
          | error e => simp [substituteVariablesSt, h, hs]
          | ok expression =>
              cases he : RuleEvaluator.evaluateExpression backend expression with
              | ok v => simp [substituteVariablesSt, h, hs, he]
              | error e => simp [substituteVariablesSt, h, hs, he]

/-- C9 (counterexample to the claim as stated).  The grammar-failure
branch of `parseRule` is reachable: on `"When x"` the ordered `alt`
commits to the `section` alternative, which consumes only `When`; the
leftover ` x` fails the end-of-input check and `parseRule` raises the
grammar-failure `ParserError`, not the missing-required-sections one. -/
theorem c9_counterexample :
    parseRule "When x" =
      .error (.parserError "Failed to parse rule"
        (some (.parserError grammarFailureMessage none))) := rfl

/-- C9 (amended).  The per-line alternation itself always succeeds —
the `calculation` alternative matches any character sequence up to a
newline, so every line is classified as some `ParsedLine` — but an
earlier alternative may consume only a proper prefix of the line, so
the grammar as a whole (and with it `parseRule`) can still fail. -/
theorem c9_every_line_classified (l : List Char) : (lineP l).isSome = true := by
  unfold lineP lineAltP
  cases h1 : ruleHeaderP (indentsSkip l) with
  | some v =>
      obtain ⟨⟨n, p⟩, r⟩ := v
      simp [h1]
  | none =>
      cases h2 : sectionP (indentsSkip l) with
      | some v =>
          obtain ⟨v, r⟩ := v
          simp [h1, h2]
      | none =>
          cases h3 : conditionP (indentsSkip l) with
          | some v =>
              obtain ⟨c, r⟩ := v
              simp [h1, h2, h3]
          | none => simp [h1, h2, h3, calculationP]

/-- C10.  For every rule text whose lines assemble to a draft with
numeric priority `0`, `parseRule` fails with the
missing-required-sections `ParserError` (wrapped by the `catch`), not
with a `ValidationError` about the priority range: the presence check
`!currentRule.priority` treats the falsy number `0` like an absent
priority. -/
theorem c10_priority_zero_rejected (text : String) (lines : List ParsedLine)
    (hparse : parseLinesRun text = some lines)
    (hprio : (assembleDraft lines).curPriority = some 0) :
    parseRule text =
      .error (.parserError "Failed to parse rule"
        (some (.parserError "Invalid rule structure: missing required sections" none))) := by
  unfold parseRule parseRuleBody
  rw [hparse]
  simp [hprio, priorityFalsy]

/-- C10 (witness): the rule text `Rule1 (0)` with well-formed
`When`/`Then` sections parses to lines whose draft priority is `0`, and
`parseRule` raises the missing-required-sections `ParserError`. -/
theorem c10_witness :
    parseLinesRun priorityZeroText = some priorityZeroLines ∧
    (assembleDraft priorityZeroLines).curPriority = some 0 ∧
    parseRule priorityZeroText =
      .error (.parserError "Failed to parse rule"
        (some (.parserError "Invalid rule structure: missing required sections" none))) :=
  ⟨rfl, rfl,
    c10_priority_zero_rejected priorityZeroText priorityZeroLines rfl rfl⟩

end CommissionDsl
